import Mathlib

/-!
Shallow embedding of the Esox object-pool library (src/src of the repository):
circuit breaker (circuit_breaker.rs), eviction tracker (eviction.rs),
metrics and health counters (metrics.rs, health.rs), configuration (config.rs)
and the fixed / dynamic pools (pool.rs).  Time is modelled by an abstract
monotone tick counter (`now : Nat`), mirroring `std::time::Instant`;
`t.elapsed()` becomes `now - t`.  The lock-free containers are modelled by
their sequential semantics: the bounded MPMC `ArrayQueue` as a list with a
capacity bound (push at the back fails when full, pop takes the front) and
the `DashMap<usize, ()>` active set as a `Finset Nat`.
-/

namespace Esox

/-! ## Errors (errors.rs) -/

inductive PoolError
  | PoolEmpty
  | PoolFull
  | Timeout (d : Nat)
  | NoMatchFound
  | ValidationFailed
  | CircuitBreakerOpen
  | MaxActiveObjectsReached
  | Cancelled
  deriving DecidableEq, Repr

/-! ## Circuit breaker (circuit_breaker.rs) -/

inductive CircuitBreakerState
  | Closed
  | Open
  | HalfOpen
  deriving DecidableEq, Repr

structure CircuitBreaker where
  state : CircuitBreakerState
  failure_count : Nat
  success_count : Nat
  failure_threshold : Nat
  timeout : Nat
  last_failure_time : Option Nat
  deriving DecidableEq, Repr

def CircuitBreaker.new (failure_threshold timeout : Nat) : CircuitBreaker :=
  { state := CircuitBreakerState.Closed
    failure_count := 0
    success_count := 0
    failure_threshold := failure_threshold
    timeout := timeout
    last_failure_time := none }

def CircuitBreaker.transition_to_open (cb : CircuitBreaker) : CircuitBreaker :=
  { cb with state := CircuitBreakerState.Open }

def CircuitBreaker.transition_to_half_open (cb : CircuitBreaker) : CircuitBreaker :=
  { cb with state := CircuitBreakerState.HalfOpen, success_count := 0 }

def CircuitBreaker.transition_to_closed (cb : CircuitBreaker) : CircuitBreaker :=
  { cb with state := CircuitBreakerState.Closed, failure_count := 0, success_count := 0 }

/-- Embedding of `CircuitBreaker::allow_request`; the Bool is the admission
decision and the second component the breaker state after the call (the
Open to HalfOpen transition happens inside the check). -/
def CircuitBreaker.allow_request (cb : CircuitBreaker) (now : Nat) : Bool × CircuitBreaker :=
  match cb.state with
  | CircuitBreakerState.Closed => (true, cb)
  | CircuitBreakerState.Open =>
    match cb.last_failure_time with
    | some t =>
      if now - t > cb.timeout then (true, cb.transition_to_half_open) else (false, cb)
    | none => (false, cb)
  | CircuitBreakerState.HalfOpen => (true, cb)

def CircuitBreaker.record_success (cb : CircuitBreaker) : CircuitBreaker :=
  let cb := { cb with success_count := cb.success_count + 1 }
  if cb.state = CircuitBreakerState.HalfOpen then
    if cb.success_count ≥ 3 then cb.transition_to_closed else cb
  else cb

def CircuitBreaker.record_failure (cb : CircuitBreaker) (now : Nat) : CircuitBreaker :=
  let count := cb.failure_count + 1
  let cb := { cb with failure_count := count, last_failure_time := some now }
  match cb.state with
  | CircuitBreakerState.Closed =>
    if count ≥ cb.failure_threshold then cb.transition_to_open else cb
  | CircuitBreakerState.HalfOpen => cb.transition_to_open
  | CircuitBreakerState.Open => cb

/-- One recorded operation on the breaker: a failure (stamped with the time
at which it is recorded) or a success. -/
inductive CBOp
  | failure (now : Nat)
  | success
  deriving DecidableEq, Repr

def CBOp.isFailure : CBOp → Bool
  | CBOp.failure _ => true
  | CBOp.success => false

def CircuitBreaker.stepOp (cb : CircuitBreaker) : CBOp → CircuitBreaker
  | CBOp.failure now => cb.record_failure now
  | CBOp.success => cb.record_success

/-- Run a sequence of record_failure / record_success calls, additionally
counting how many steps transition the breaker from Closed to Open. -/
def CircuitBreaker.runCount : CircuitBreaker → List CBOp → CircuitBreaker × Nat
  | cb, [] => (cb, 0)
  | cb, op :: ops =>
    let cb2 := cb.stepOp op
    let r := cb2.runCount ops
    (r.1,
      (if cb.state = CircuitBreakerState.Closed ∧ cb2.state = CircuitBreakerState.Open
       then 1 else 0) + r.2)

def countFailures (ops : List CBOp) : Nat :=
  (ops.filter CBOp.isFailure).length

/-! ## Eviction (eviction.rs) -/

inductive EvictionPolicy
  | None
  | TimeToLive (ttl : Nat)
  | IdleTimeout (timeout : Nat)
  | Combined (ttl idle_timeout : Nat)
  deriving DecidableEq, Repr

/-- The `matches!(self.policy, EvictionPolicy::None)` test of eviction.rs. -/
def EvictionPolicy.isNonePolicy : EvictionPolicy → Bool
  | EvictionPolicy.None => true
  | _ => false

structure ObjectMetadata where
  created_at : Nat
  last_used : Nat
  deriving DecidableEq, Repr

def ObjectMetadata.new (now : Nat) : ObjectMetadata :=
  { created_at := now, last_used := now }

def ObjectMetadata.touch (m : ObjectMetadata) (now : Nat) : ObjectMetadata :=
  { m with last_used := now }

def ObjectMetadata.is_expired (m : ObjectMetadata) (policy : EvictionPolicy) (now : Nat) : Bool :=
  match policy with
  | EvictionPolicy.None => false
  | EvictionPolicy.TimeToLive ttl => now - m.created_at > ttl
  | EvictionPolicy.IdleTimeout timeout => now - m.last_used > timeout
  | EvictionPolicy.Combined ttl idle_timeout =>
      now - m.created_at > ttl || now - m.last_used > idle_timeout

/-- Association-list model of the `HashMap<usize, ObjectMetadata>` behind the
tracker's mutex; `insertMeta` replaces an existing binding like
`HashMap::insert`. -/
def lookupMeta : List (Nat × ObjectMetadata) → Nat → Option ObjectMetadata
  | [], _ => none
  | (k, v) :: rest, id => if k = id then some v else lookupMeta rest id

def insertMeta : List (Nat × ObjectMetadata) → Nat → ObjectMetadata → List (Nat × ObjectMetadata)
  | [], id, v => [(id, v)]
  | (k, w) :: rest, id, v =>
      if k = id then (id, v) :: rest else (k, w) :: insertMeta rest id v

def removeMeta : List (Nat × ObjectMetadata) → Nat → List (Nat × ObjectMetadata)
  | [], _ => []
  | (k, w) :: rest, id =>
      if k = id then removeMeta rest id else (k, w) :: removeMeta rest id

structure EvictionTracker where
  metadata : List (Nat × ObjectMetadata)
  policy : EvictionPolicy
  deriving DecidableEq, Repr

def EvictionTracker.new (policy : EvictionPolicy) : EvictionTracker :=
  { metadata := [], policy := policy }

def EvictionTracker.track_object (tr : EvictionTracker) (id now : Nat) : EvictionTracker :=
  if tr.policy.isNonePolicy then tr
  else { tr with metadata := insertMeta tr.metadata id (ObjectMetadata.new now) }

def EvictionTracker.touch_object (tr : EvictionTracker) (id now : Nat) : EvictionTracker :=
  if tr.policy.isNonePolicy then tr
  else
    match lookupMeta tr.metadata id with
    | some m => { tr with metadata := insertMeta tr.metadata id (m.touch now) }
    | none => tr

def EvictionTracker.is_expired (tr : EvictionTracker) (id now : Nat) : Bool :=
  if tr.policy.isNonePolicy then false
  else
    match lookupMeta tr.metadata id with
    | some m => m.is_expired tr.policy now
    | none => false

def EvictionTracker.remove_object (tr : EvictionTracker) (id : Nat) : EvictionTracker :=
  { tr with metadata := removeMeta tr.metadata id }

/-! ## Metrics and health (metrics.rs, health.rs) -/

structure MetricsTracker where
  total_retrieved : Nat
  total_returned : Nat
  pool_empty_events : Nat
  validation_failures : Nat
  deriving DecidableEq, Repr

def MetricsTracker.new : MetricsTracker :=
  { total_retrieved := 0, total_returned := 0, pool_empty_events := 0, validation_failures := 0 }

structure PoolMetrics where
  total_retrieved : Nat
  total_returned : Nat
  active_objects : Nat
  available_objects : Nat
  pool_empty_events : Nat
  validation_failures : Nat
  utilization : Rat
  max_capacity : Nat
  deriving DecidableEq, Repr

/-- `MetricsTracker::get_metrics`; the f64 utilization is modelled by an
exact rational. -/
def MetricsTracker.get_metrics (m : MetricsTracker) (active available capacity : Nat) :
    PoolMetrics :=
  { total_retrieved := m.total_retrieved
    total_returned := m.total_returned
    active_objects := active
    available_objects := available
    pool_empty_events := m.pool_empty_events
    validation_failures := m.validation_failures
    utilization := if capacity > 0 then (active : Rat) / (capacity : Rat) else 0
    max_capacity := capacity }

structure HealthTracker where
  total_retrieved : Nat
  total_returned : Nat
  pool_empty_count : Nat
  validation_failures : Nat
  is_healthy : Bool
  deriving DecidableEq, Repr

def HealthTracker.new : HealthTracker :=
  { total_retrieved := 0, total_returned := 0, pool_empty_count := 0,
    validation_failures := 0, is_healthy := true }

/-! ## Configuration (config.rs) -/

structure PoolConfiguration (T : Type) where
  max_pool_size : Nat
  max_active_objects : Option Nat
  validate_on_return : Bool
  validation_function : Option (T → Bool)
  operation_timeout : Option Nat
  time_to_live : Option Nat
  idle_timeout : Option Nat
  warmup_size : Option Nat
  enable_circuit_breaker : Bool
  circuit_breaker_threshold : Nat
  circuit_breaker_timeout : Nat

def PoolConfiguration.default (T : Type) : PoolConfiguration T :=
  { max_pool_size := 100
    max_active_objects := none
    validate_on_return := false
    validation_function := none
    operation_timeout := some 30
    time_to_live := none
    idle_timeout := none
    warmup_size := none
    enable_circuit_breaker := false
    circuit_breaker_threshold := 5
    circuit_breaker_timeout := 60 }

def PoolConfiguration.with_max_pool_size {T : Type} (cfg : PoolConfiguration T) (size : Nat) :
    PoolConfiguration T :=
  { cfg with max_pool_size := size }

def PoolConfiguration.with_max_active_objects {T : Type} (cfg : PoolConfiguration T)
    (count : Nat) : PoolConfiguration T :=
  { cfg with max_active_objects := some count }

def PoolConfiguration.with_validation {T : Type} (cfg : PoolConfiguration T) (f : T → Bool) :
    PoolConfiguration T :=
  { cfg with validate_on_return := true, validation_function := some f }

def PoolConfiguration.with_ttl {T : Type} (cfg : PoolConfiguration T) (ttl : Nat) :
    PoolConfiguration T :=
  { cfg with time_to_live := some ttl }

def PoolConfiguration.with_idle_timeout {T : Type} (cfg : PoolConfiguration T) (d : Nat) :
    PoolConfiguration T :=
  { cfg with idle_timeout := some d }

def PoolConfiguration.with_circuit_breaker {T : Type} (cfg : PoolConfiguration T)
    (threshold timeout : Nat) : PoolConfiguration T :=
  { cfg with enable_circuit_breaker := true,
             circuit_breaker_threshold := threshold,
             circuit_breaker_timeout := timeout }

/-! ## Fixed pool (pool.rs) -/

/-- Sequential model of `ArrayQueue::push` followed by `let _ = ...`: the
entry is appended at the back when the queue has room, and silently
dropped otherwise. -/
def pushDrop {T : Type} (q : List (T × Nat)) (cap : Nat) (e : T × Nat) : List (T × Nat) :=
  if q.length < cap then q ++ [e] else q

structure ObjectPool (T : Type) where
  available : List (T × Nat)
  active : Finset Nat
  config : PoolConfiguration T
  metrics : MetricsTracker
  health : HealthTracker
  eviction : EvictionTracker
  circuit_breaker : Option CircuitBreaker
  next_id : Nat
  capacity : Nat

/-- The eviction-policy selection of `ObjectPool::new` (pool.rs lines 135-148). -/
def evictionPolicyOfConfig {T : Type} (config : PoolConfiguration T) : EvictionPolicy :=
  match config.time_to_live with
  | some ttl =>
    match config.idle_timeout with
    | some idle => EvictionPolicy.Combined ttl idle
    | none => EvictionPolicy.TimeToLive ttl
  | none =>
    match config.idle_timeout with
    | some idle => EvictionPolicy.IdleTimeout idle
    | none => EvictionPolicy.None

/-- One step of the construction loop of `ObjectPool::new`: track the index
in the eviction tracker and push `(obj, idx)` into the queue. -/
def initStep {T : Type} (cap now : Nat) (acc : EvictionTracker × List (T × Nat)) (p : Nat × T) :
    EvictionTracker × List (T × Nat) :=
  (acc.1.track_object p.1 now, pushDrop acc.2 cap (p.2, p.1))

def ObjectPool.new {T : Type} (objects : List T) (config : PoolConfiguration T) (now : Nat) :
    ObjectPool T :=
  let capacity := max objects.length config.max_pool_size
  let init := objects.enum.foldl (initStep capacity now)
    (EvictionTracker.new (evictionPolicyOfConfig config), [])
  { available := init.2
    active := ∅
    config := config
    metrics := MetricsTracker.new
    health := HealthTracker.new
    eviction := init.1
    circuit_breaker :=
      if config.enable_circuit_breaker then
        some (CircuitBreaker.new config.circuit_breaker_threshold config.circuit_breaker_timeout)
      else none
    next_id := capacity
    capacity := capacity }

/-- `ObjectPool::check_circuit_breaker`: the admission decision together
with the breaker state after the `allow_request` call. -/
def ObjectPool.check_circuit_breaker {T : Type} (st : ObjectPool T) (now : Nat) :
    Except PoolError Unit × Option CircuitBreaker :=
  match st.circuit_breaker with
  | some cb =>
    let r := cb.allow_request now
    if r.1 then (Except.ok (), some r.2)
    else (Except.error PoolError.CircuitBreakerOpen, some r.2)
  | none => (Except.ok (), none)

def ObjectPool.check_max_active {T : Type} (st : ObjectPool T) : Except PoolError Unit :=
  match st.config.max_active_objects with
  | some m =>
      if st.active.card ≥ m then Except.error PoolError.MaxActiveObjectsReached
      else Except.ok ()
  | none => Except.ok ()

def ObjectPool.cbRecordFailure {T : Type} (st : ObjectPool T) (now : Nat) : ObjectPool T :=
  { st with circuit_breaker := st.circuit_breaker.map (fun cb => cb.record_failure now) }

def ObjectPool.cbRecordSuccess {T : Type} (st : ObjectPool T) : ObjectPool T :=
  { st with circuit_breaker := st.circuit_breaker.map CircuitBreaker.record_success }

/-- The pop loop of `ObjectPool::get_object`, flattened over the queue
contents: pop entries from the front, discarding expired ones (and removing
their metadata) until a live entry or the end of the queue is reached. -/
def drainExpired {T : Type} (now : Nat) :
    EvictionTracker → List (T × Nat) →
      Option ((T × Nat) × List (T × Nat)) × EvictionTracker
  | ev, [] => (none, ev)
  | ev, e :: rest =>
    if ev.is_expired e.2 now then drainExpired now (ev.remove_object e.2) rest
    else (some (e, rest), ev)

/-- Embedding of `ObjectPool::get_object`.  The successful result carries
the leased `(value, id)` pair; the second component is the pool state after
the call. -/
def ObjectPool.get_object {T : Type} (st0 : ObjectPool T) (now : Nat) :
    Except PoolError (T × Nat) × ObjectPool T :=
  let c := st0.check_circuit_breaker now
  let st := { st0 with circuit_breaker := c.2 }
  match c.1 with
  | Except.error e => (Except.error e, st)
  | Except.ok _ =>
    match st.check_max_active with
    | Except.error e => (Except.error e, st)
    | Except.ok _ =>
      match drainExpired now st.eviction st.available with
      | (none, ev) =>
          (Except.error PoolError.PoolEmpty,
           ObjectPool.cbRecordFailure
             { st with
               available := []
               eviction := ev
               metrics :=
                 { st.metrics with pool_empty_events := st.metrics.pool_empty_events + 1 }
               health :=
                 { st.health with pool_empty_count := st.health.pool_empty_count + 1 } } now)
      | (some (e, rest), ev) =>
          (Except.ok e,
           ObjectPool.cbRecordSuccess
             { st with
               available := rest
               active := insert e.2 st.active
               eviction := ev.touch_object e.2 now
               metrics :=
                 { st.metrics with total_retrieved := st.metrics.total_retrieved + 1 }
               health :=
                 { st.health with total_retrieved := st.health.total_retrieved + 1 } })

/-- `ObjectPool::try_get_object`: every error is collapsed to `none`. -/
def ObjectPool.try_get_object {T : Type} (st : ObjectPool T) (now : Nat) :
    Option (T × Nat) × ObjectPool T :=
  match st.get_object now with
  | (Except.ok v, st) => (some v, st)
  | (Except.error _, st) => (none, st)

/-- The compiled condition of the return closure's validation branch:
`config.validate_on_return && let Some(validate) = config.validation_function
&& !validate(&obj)`. -/
def rejectsReturn {T : Type} (cfg : PoolConfiguration T) (obj : T) : Bool :=
  cfg.validate_on_return &&
    (match cfg.validation_function with
     | some validate => !(validate obj)
     | none => false)

/-- Embedding of the closure produced by `ObjectPool::make_return_fn`,
applied to the pool state current at drop time. -/
def ObjectPool.return_fn {T : Type} (st : ObjectPool T) (obj : T) (id now : Nat) :
    ObjectPool T :=
  if rejectsReturn st.config obj then
    { st with
      metrics :=
        { st.metrics with validation_failures := st.metrics.validation_failures + 1 }
      active := st.active.erase id
      eviction := st.eviction.remove_object id }
  else
    { st with
      eviction := st.eviction.touch_object id now
      active := st.active.erase id
      available := pushDrop st.available st.capacity (obj, id)
      metrics := { st.metrics with total_returned := st.metrics.total_returned + 1 }
      health := { st.health with total_returned := st.health.total_returned + 1 } }

def ObjectPool.get_metrics {T : Type} (st : ObjectPool T) : PoolMetrics :=
  st.metrics.get_metrics st.active.card st.available.length st.capacity

def ObjectPool.available_count {T : Type} (st : ObjectPool T) : Nat :=
  st.available.length

def ObjectPool.active_count {T : Type} (st : ObjectPool T) : Nat :=
  st.active.card

/-! ## Lease handle (pool.rs, `PooledObject`) -/

structure PooledObject (T : Type) where
  value : Option T
  object_id : Nat
  deriving DecidableEq, Repr

def PooledObject.new {T : Type} (v : T) (id : Nat) : PooledObject T :=
  { value := some v, object_id := id }

/-- `PooledObject::unwrap`: `self.value.take()` — the raw value (if still
present) together with the consumed handle. -/
def PooledObject.unwrap {T : Type} (po : PooledObject T) : Option T × PooledObject T :=
  (po.value, { po with value := none })

/-- `impl Drop for PooledObject`: the return closure runs only when the
value was not taken. -/
def PooledObject.dropLease {T : Type} (po : PooledObject T) (st : ObjectPool T) (now : Nat) :
    ObjectPool T :=
  match po.value with
  | some v => st.return_fn v po.object_id now
  | none => st

/-! ## Dynamic pool (pool.rs, `DynamicObjectPool`) -/

structure DynamicObjectPool (T : Type) where
  inner : ObjectPool T
  factory : Unit → T

def DynamicObjectPool.new {T : Type} (factory : Unit → T) (config : PoolConfiguration T)
    (now : Nat) : DynamicObjectPool T :=
  { inner := ObjectPool.new [] config now, factory := factory }

def DynamicObjectPool.get_object {T : Type} (dp : DynamicObjectPool T) (now : Nat) :
    Except PoolError (T × Nat) × DynamicObjectPool T :=
  match dp.inner.try_get_object now with
  | (some v, st) => (Except.ok v, { dp with inner := st })
  | (none, st) =>
    if st.active.card < st.capacity then
      let obj := dp.factory ()
      let id := st.next_id
      let st :=
        { st with
          next_id := st.next_id + 1
          eviction := st.eviction.track_object id now
          active := insert id st.active
          metrics := { st.metrics with total_retrieved := st.metrics.total_retrieved + 1 }
          health := { st.health with total_retrieved := st.health.total_retrieved + 1 } }
      (Except.ok (obj, id), { dp with inner := st })
    else (Except.error PoolError.PoolFull, { dp with inner := st })

/-! ## Operation sequences over a pool

A `PoolWorld` pairs the pool with the list of outstanding leases and the
number of values permanently extracted by callers, so that whole
checkout / drop / extraction histories can be replayed. -/

inductive PoolOp (T : Type)
  | checkout (now : Nat)
  | ret (idx now : Nat)
  | extract (idx : Nat)

structure PoolWorld (T : Type) where
  pool : ObjectPool T
  outstanding : List (T × Nat)
  extracted : Nat

def PoolWorld.step {T : Type} (w : PoolWorld T) : PoolOp T → PoolWorld T
  | PoolOp.checkout now =>
    match w.pool.get_object now with
    | (Except.ok p, st) => { w with pool := st, outstanding := w.outstanding ++ [p] }
    | (Except.error _, st) => { w with pool := st }
  | PoolOp.ret idx now =>
    match w.outstanding[idx]? with
    | some p =>
        { w with
          pool := w.pool.return_fn p.1 p.2 now
          outstanding := w.outstanding.eraseIdx idx }
    | none => w
  | PoolOp.extract idx =>
    match w.outstanding[idx]? with
    | some _ =>
        { w with outstanding := w.outstanding.eraseIdx idx, extracted := w.extracted + 1 }
    | none => w

def PoolWorld.run {T : Type} (w : PoolWorld T) : List (PoolOp T) → PoolWorld T
  | [] => w
  | op :: ops => (w.step op).run ops

def PoolWorld.init {T : Type} (objects : List T) (config : PoolConfiguration T) (now : Nat) :
    PoolWorld T :=
  { pool := ObjectPool.new objects config now, outstanding := [], extracted := 0 }

/-- One checkout-then-drop cycle (the round-trip of spec section 8). -/
def checkoutDropCycle {T : Type} (st : ObjectPool T) (now : Nat) : ObjectPool T :=
  match st.get_object now with
  | (Except.ok p, st) => st.return_fn p.1 p.2 now
  | (Except.error _, st) => st

def iterCycles {T : Type} (st : ObjectPool T) (now : Nat) : Nat → ObjectPool T
  | 0 => st
  | n + 1 => iterCycles (checkoutDropCycle st now) now n

def runCheckouts {T : Type} (st : ObjectPool T) : List Nat → ObjectPool T
  | [] => st
  | now :: rest => runCheckouts (st.get_object now).2 rest

def runDynCheckouts {T : Type} (dp : DynamicObjectPool T) : List Nat → DynamicObjectPool T
  | [] => dp
  | now :: rest => runDynCheckouts (dp.get_object now).2 rest

/-! ## Specification-shaped checkout (claim C2)

The following definitions transcribe the claim's narrative of the checkout
data flow — admission (circuit breaker, then max-active), then a pop loop
that discards expired entries — to be compared against `get_object`. -/

/-- Failure effects of an exhausted pop loop, as the claim words them: bump
`pool_empty_events`, record a circuit-breaker failure, fail with
`PoolEmpty` (the pool's health empty counter is bumped alongside, as in the
source). -/
def emptyFailureEffects {T : Type} (st : ObjectPool T) (now : Nat) : ObjectPool T :=
  ObjectPool.cbRecordFailure
    { st with
      metrics := { st.metrics with pool_empty_events := st.metrics.pool_empty_events + 1 }
      health := { st.health with pool_empty_count := st.health.pool_empty_count + 1 } } now

/-- Success effects of a checkout, as the claim words them: insert the id
into the active set, touch the eviction metadata, bump `total_retrieved`
(and the health counter), record a circuit-breaker success. -/
def leaseSuccessEffects {T : Type} (st : ObjectPool T) (id now : Nat) : ObjectPool T :=
  ObjectPool.cbRecordSuccess
    { st with
      active := insert id st.active
      eviction := st.eviction.touch_object id now
      metrics := { st.metrics with total_retrieved := st.metrics.total_retrieved + 1 }
      health := { st.health with total_retrieved := st.health.total_retrieved + 1 } }

/-- The claim's pop loop, recursing directly on the pool state: pop an
entry, discard it (dropping its metadata) if expired and loop, otherwise
produce the lease. -/
def popDiscardLoop {T : Type} (now : Nat) (st : ObjectPool T) :
    Except PoolError (T × Nat) × ObjectPool T :=
  match hq : st.available with
  | [] => (Except.error PoolError.PoolEmpty, emptyFailureEffects st now)
  | e :: rest =>
    if st.eviction.is_expired e.2 now then
      popDiscardLoop now
        { st with available := rest, eviction := st.eviction.remove_object e.2 }
    else
      (Except.ok e, leaseSuccessEffects { st with available := rest } e.2 now)
termination_by st.available.length
decreasing_by simp [hq]

/-- Checkout as narrated by claim C2: circuit-breaker admission check
first, then the max-active check, then the pop loop. -/
def ObjectPool.checkoutSpec {T : Type} (st0 : ObjectPool T) (now : Nat) :
    Except PoolError (T × Nat) × ObjectPool T :=
  match st0.check_circuit_breaker now with
  | (Except.error e, cb2) => (Except.error e, { st0 with circuit_breaker := cb2 })
  | (Except.ok _, cb2) =>
    let st := { st0 with circuit_breaker := cb2 }
    match st.check_max_active with
    | Except.error e => (Except.error e, st)
    | Except.ok _ => popDiscardLoop now st

/-- Ids currently sitting in the available queue. -/
def availIds {T : Type} (st : ObjectPool T) : List Nat :=
  st.available.map Prod.snd

instance {ε α : Type} [DecidableEq ε] [DecidableEq α] : DecidableEq (Except ε α) := fun x y =>
  match x, y with
  | Except.ok a, Except.ok b =>
    if h : a = b then Decidable.isTrue (by rw [h])
    else Decidable.isFalse (by intro hh; cases hh; exact h rfl)
  | Except.error a, Except.error b =>
    if h : a = b then Decidable.isTrue (by rw [h])
    else Decidable.isFalse (by intro hh; cases hh; exact h rfl)
  | Except.ok _, Except.error _ => Decidable.isFalse (by intro hh; cases hh)
  | Except.error _, Except.ok _ => Decidable.isFalse (by intro hh; cases hh)

/-- Reachability invariant of a breaker driven only by record_failure and
record_success from the Closed construction state: the threshold is fixed,
the failure count totals the recorded failures, the state is Closed or
Open, and it is Open exactly when the count has reached the threshold (and
at least one failure happened). -/
def InvCB (t n : Nat) (cb : CircuitBreaker) : Prop :=
  cb.failure_threshold = t ∧
  cb.failure_count = n ∧
  (cb.state = CircuitBreakerState.Closed ∨ cb.state = CircuitBreakerState.Open) ∧
  (cb.state = CircuitBreakerState.Open ↔ t ≤ n ∧ 1 ≤ n)

/-- State class preserved along checkout-then-drop cycles over a pool built
with the default configuration: the queue keeps its N entries, nothing
stays active, the two counters advance in lockstep, and the policy-free
default features stay off. -/
def CycleInv {T : Type} (N m : Nat) (st : ObjectPool T) : Prop :=
  st.available.length = N ∧
  st.active = ∅ ∧
  st.metrics.total_retrieved = m ∧
  st.metrics.total_returned = m ∧
  st.circuit_breaker = none ∧
  st.config.max_active_objects = none ∧
  st.config.validate_on_return = false ∧
  st.eviction.policy = EvictionPolicy.None ∧
  N ≤ st.capacity

/-- State class of a capacity-zero fixed pool under a configuration whose
admission checks always pass. -/
def EmptyZeroInv {T : Type} (cfg : PoolConfiguration T) (st : ObjectPool T) : Prop :=
  st.available = [] ∧
  st.active = ∅ ∧
  st.circuit_breaker = none ∧
  st.config = cfg ∧
  st.capacity = 0

/-- Run invariant for claim C1 over whole operation histories: the counter
identity that actually holds in the code, together with the bookkeeping
facts needed to push it through every operation (available ids are distinct
and disjoint from the active set; outstanding lease ids are distinct and
active). -/
def WorldInv {T : Type} (w : PoolWorld T) : Prop :=
  w.pool.metrics.total_retrieved
      = w.pool.metrics.total_returned + w.pool.active.card
        + w.pool.metrics.validation_failures ∧
  (availIds w.pool).Nodup ∧
  (∀ i ∈ availIds w.pool, i ∉ w.pool.active) ∧
  (∀ p ∈ w.outstanding, p.2 ∈ w.pool.active) ∧
  (w.outstanding.map Prod.snd).Nodup

/-! ## Lemmas about the circuit breaker -/

lemma record_success_of_ne_half (cb : CircuitBreaker)
    (h : cb.state ≠ CircuitBreakerState.HalfOpen) :
    cb.record_success = { cb with success_count := cb.success_count + 1 } := by
  unfold CircuitBreaker.record_success
  simp [h]

lemma record_failure_open (cb : CircuitBreaker) (now : Nat)
    (h : cb.state = CircuitBreakerState.Open) :
    cb.record_failure now =
      { cb with failure_count := cb.failure_count + 1, last_failure_time := some now } := by
  unfold CircuitBreaker.record_failure
  simp only [h]

lemma record_failure_closed (cb : CircuitBreaker) (now : Nat)
    (h : cb.state = CircuitBreakerState.Closed) :
    cb.record_failure now =
      { cb with
        state :=
          if cb.failure_count + 1 ≥ cb.failure_threshold
          then CircuitBreakerState.Open else CircuitBreakerState.Closed
        failure_count := cb.failure_count + 1
        last_failure_time := some now } := by
  unfold CircuitBreaker.record_failure CircuitBreaker.transition_to_open
  simp only [h]
  split <;> simp_all

lemma runCount_nil (cb : CircuitBreaker) : cb.runCount [] = (cb, 0) := rfl

lemma runCount_cons (cb : CircuitBreaker) (op : CBOp) (ops : List CBOp) :
    cb.runCount (op :: ops) =
      (((cb.stepOp op).runCount ops).1,
       (if cb.state = CircuitBreakerState.Closed ∧
           (cb.stepOp op).state = CircuitBreakerState.Open then 1 else 0)
         + ((cb.stepOp op).runCount ops).2) := rfl

lemma countFailures_cons (op : CBOp) (ops : List CBOp) :
    countFailures (op :: ops) = (if op.isFailure then 1 else 0) + countFailures ops := by
  cases op <;> simp [countFailures, CBOp.isFailure] <;> omega

lemma stepOp_inv (op : CBOp) (cb : CircuitBreaker) (t n : Nat) (h : InvCB t n cb) :
    InvCB t (n + (if op.isFailure then 1 else 0)) (cb.stepOp op) := by
  obtain ⟨ht, hn, hso, hiff⟩ := h
  cases op with
  | success =>
    have hne : cb.state ≠ CircuitBreakerState.HalfOpen := by
      rcases hso with h | h <;> simp [h]
    show InvCB (t := t) (n := n + 0) _
    rw [CircuitBreaker.stepOp, record_success_of_ne_half cb hne]
    exact ⟨ht, by simpa using hn, hso, by simpa using hiff⟩
  | failure now =>
    show InvCB (t := t) (n := n + 1) (cb.record_failure now)
    rcases hso with hcl | hop
    · rw [record_failure_closed cb now hcl]
      by_cases hth : cb.failure_count + 1 ≥ cb.failure_threshold
      · refine ⟨ht, by simp [hn], Or.inr (by simp [hth]), ?_⟩
        simp only [hth, if_true]
        simp
        omega
      · refine ⟨ht, by simp [hn], Or.inl (by simp [hth]), ?_⟩
        simp only [hth, if_false]
        simp
        omega
    · rw [record_failure_open cb now hop]
      have hold := hiff.mp hop
      refine ⟨ht, by simp [hn], Or.inr hop, ?_⟩
      simp only [hop]
      simp
      omega

lemma stepOp_open (op : CBOp) (cb : CircuitBreaker)
    (hop : cb.state = CircuitBreakerState.Open) :
    (cb.stepOp op).state = CircuitBreakerState.Open := by
  cases op with
  | success =>
    have hne : cb.state ≠ CircuitBreakerState.HalfOpen := by simp [hop]
    rw [CircuitBreaker.stepOp, record_success_of_ne_half cb hne]
    exact hop
  | failure now =>
    rw [CircuitBreaker.stepOp, record_failure_open cb now hop]
    exact hop

lemma runCount_spec (ops : List CBOp) :
    ∀ (cb : CircuitBreaker) (t n : Nat), InvCB t n cb →
      InvCB t (n + countFailures ops) (cb.runCount ops).1 ∧
      (cb.runCount ops).2 =
        (if cb.state = CircuitBreakerState.Closed ∧
            (cb.runCount ops).1.state = CircuitBreakerState.Open then 1 else 0) := by
  induction ops with
  | nil =>
    intro cb t n h
    refine ⟨by simpa [countFailures] using h, ?_⟩
    rcases h.2.2.1 with hcl | hop
    · simp [runCount_nil, hcl]
    · have : cb.state ≠ CircuitBreakerState.Closed := by simp [hop]
      simp [runCount_nil, this]
  | cons op ops ih =>
    intro cb t n h
    have h2 := stepOp_inv op cb t n h
    have ihr := ih (cb.stepOp op) t (n + (if op.isFailure then 1 else 0)) h2
    constructor
    · have harith : n + (if op.isFailure then 1 else 0) + countFailures ops
          = n + countFailures (op :: ops) := by
        rw [countFailures_cons]; omega
      rw [runCount_cons]
      simpa [harith] using ihr.1
    · rw [runCount_cons]
      simp only
      rw [ihr.2]
      rcases h2.2.2.1 with hcl2 | hop2
      · have hclb : cb.state = CircuitBreakerState.Closed := by
          rcases h.2.2.1 with hcl | hop
          · exact hcl
          · exfalso
            have hoabs := stepOp_open op cb hop
            rw [hcl2] at hoabs
            cases hoabs
        have hne2 : ¬ (cb.stepOp op).state = CircuitBreakerState.Open := by simp [hcl2]
        simp [hclb, hcl2, hne2]
      · have hfin : ((cb.stepOp op).runCount ops).1.state = CircuitBreakerState.Open := by
          have hcond := h2.2.2.2.mp hop2
          apply ihr.1.2.2.2.mpr
          omega
        simp [hop2, hfin]

/-- C4 (counterexample): with threshold 2, the run failure-success-failure
contains no two consecutive failures, yet it drives the breaker from Closed
to Open — record_success does not reset the failure count in Closed, so the
claim's consecutiveness condition is refuted. -/
theorem C4_counterexample :
    ((CircuitBreaker.new 2 60).runCount
        [CBOp.failure 0, CBOp.success, CBOp.failure 1]).1.state
      = CircuitBreakerState.Open := by decide

/-- C4 (amended): driven from the fresh Closed construction state by any
sequence of record_failure and record_success calls, the breaker ends Open
exactly when the cumulative number of recorded failures reaches the
threshold (with at least one failure recorded), and the Closed-to-Open
transition happens exactly once — precisely when the run opens the
breaker.  Successes recorded while Closed do not reset the failure count,
so the threshold-many failures need not be consecutive. -/
theorem C4_amended_open_iff (t d : Nat) (ops : List CBOp) :
    (((CircuitBreaker.new t d).runCount ops).1.state = CircuitBreakerState.Open ↔
      t ≤ countFailures ops ∧ 1 ≤ countFailures ops) ∧
    ((CircuitBreaker.new t d).runCount ops).2 =
      (if ((CircuitBreaker.new t d).runCount ops).1.state = CircuitBreakerState.Open
       then 1 else 0) := by
  have hinv : InvCB t 0 (CircuitBreaker.new t d) := by
    refine ⟨rfl, rfl, Or.inl rfl, ?_⟩
    constructor
    · intro h; simp [CircuitBreaker.new] at h
    · intro h; exact absurd h.2 (by omega)
  have h := runCount_spec ops (CircuitBreaker.new t d) t 0 hinv
  constructor
  · simpa using h.1.2.2.2
  · rw [h.2]
    simp [CircuitBreaker.new]

/-- C5: in Closed and Half-Open states allow_request admits and leaves the
breaker unchanged; in Open with a recorded last failure time, it admits
and transitions to Half-Open exactly when the elapsed time since that
failure exceeds the reset timeout, and otherwise denies and leaves the
state Open. -/
theorem C5_allow_request (cb : CircuitBreaker) (now t : Nat) :
    (cb.state = CircuitBreakerState.Closed → cb.allow_request now = (true, cb)) ∧
    (cb.state = CircuitBreakerState.HalfOpen → cb.allow_request now = (true, cb)) ∧
    (cb.state = CircuitBreakerState.Open → cb.last_failure_time = some t →
      ((now - t > cb.timeout → cb.allow_request now = (true, cb.transition_to_half_open)) ∧
       (¬ now - t > cb.timeout → cb.allow_request now = (false, cb)) ∧
       ((cb.allow_request now).1 = true ∧
          (cb.allow_request now).2.state = CircuitBreakerState.HalfOpen ↔
            now - t > cb.timeout))) := by
  refine ⟨?_, ?_, ?_⟩
  · intro h; simp [CircuitBreaker.allow_request, h]
  · intro h; simp [CircuitBreaker.allow_request, h]
  · intro h hl
    refine ⟨?_, ?_, ?_⟩
    · intro hgt; simp [CircuitBreaker.allow_request, h, hl, hgt]
    · intro hng; simp [CircuitBreaker.allow_request, h, hl, hng]
    · by_cases hgt : now - t > cb.timeout
      · simp [CircuitBreaker.allow_request, h, hl, hgt,
          CircuitBreaker.transition_to_half_open]
      · simp [CircuitBreaker.allow_request, h, hl, hgt]

/-- C5 (witness): a breaker opened by one failure at time 0 with reset
timeout 10 admits the probe at time 11 transitioning to Half-Open, and
denies at time 5 staying put. -/
theorem C5_witness :
    ((CircuitBreaker.new 1 10).record_failure 0).allow_request 11 =
      (true, ((CircuitBreaker.new 1 10).record_failure 0).transition_to_half_open) ∧
    ((CircuitBreaker.new 1 10).record_failure 0).allow_request 5 =
      (false, (CircuitBreaker.new 1 10).record_failure 0) := by
  have h := C5_allow_request ((CircuitBreaker.new 1 10).record_failure 0) 11 0
  have h2 := C5_allow_request ((CircuitBreaker.new 1 10).record_failure 0) 5 0
  exact ⟨(h.2.2 rfl rfl).1 (by decide), (h2.2.2 rfl rfl).2.1 (by decide)⟩

/-- C6: is_expired follows the policy exactly — never expired under None
(which also stores no metadata: track_object is a no-op), false whenever no
metadata exists for the id, and under TimeToLive / IdleTimeout / Combined
it tests the age, the idleness, or their disjunction respectively. -/
theorem C6_is_expired (tr : EvictionTracker) (id now : Nat) :
    (tr.policy = EvictionPolicy.None → tr.is_expired id now = false) ∧
    (tr.policy = EvictionPolicy.None → (tr.track_object id now).metadata = tr.metadata) ∧
    (lookupMeta tr.metadata id = none → tr.is_expired id now = false) ∧
    (∀ m ttl, tr.policy = EvictionPolicy.TimeToLive ttl →
      lookupMeta tr.metadata id = some m →
      (tr.is_expired id now = true ↔ now - m.created_at > ttl)) ∧
    (∀ m d, tr.policy = EvictionPolicy.IdleTimeout d →
      lookupMeta tr.metadata id = some m →
      (tr.is_expired id now = true ↔ now - m.last_used > d)) ∧
    (∀ m ttl d, tr.policy = EvictionPolicy.Combined ttl d →
      lookupMeta tr.metadata id = some m →
      (tr.is_expired id now = true ↔
        (now - m.created_at > ttl ∨ now - m.last_used > d))) := by
  refine ⟨?_, ?_, ?_, ?_, ?_, ?_⟩
  · intro h
    simp [EvictionTracker.is_expired, h, EvictionPolicy.isNonePolicy]
  · intro h
    simp [EvictionTracker.track_object, h, EvictionPolicy.isNonePolicy]
  · intro hl
    unfold EvictionTracker.is_expired
    split
    · rfl
    · rw [hl]
  · intro m ttl hp hl
    simp [EvictionTracker.is_expired, hp, EvictionPolicy.isNonePolicy, hl,
      ObjectMetadata.is_expired]
  · intro m d hp hl
    simp [EvictionTracker.is_expired, hp, EvictionPolicy.isNonePolicy, hl,
      ObjectMetadata.is_expired]
  · intro m ttl d hp hl
    simp [EvictionTracker.is_expired, hp, EvictionPolicy.isNonePolicy, hl,
      ObjectMetadata.is_expired]

/-- C6 (witness): an id tracked at time 0 under a TTL of 5 is expired at
time 6 and not at time 5; an untracked id is never expired. -/
theorem C6_witness :
    ((EvictionTracker.new (EvictionPolicy.TimeToLive 5)).track_object 1 0).is_expired 1 6
        = true ∧
    ((EvictionTracker.new (EvictionPolicy.TimeToLive 5)).track_object 1 0).is_expired 1 5
        = false ∧
    ((EvictionTracker.new (EvictionPolicy.TimeToLive 5)).track_object 1 0).is_expired 2 6
        = false := by
  have h6 := C6_is_expired
    ((EvictionTracker.new (EvictionPolicy.TimeToLive 5)).track_object 1 0) 1 6
  have h5 := C6_is_expired
    ((EvictionTracker.new (EvictionPolicy.TimeToLive 5)).track_object 1 0) 1 5
  have hu := C6_is_expired
    ((EvictionTracker.new (EvictionPolicy.TimeToLive 5)).track_object 1 0) 2 6
  refine ⟨?_, ?_, ?_⟩
  · exact (h6.2.2.2.1 (ObjectMetadata.new 0) 5 rfl rfl).mpr (by decide)
  · have hiff := (h5.2.2.2.1 (ObjectMetadata.new 0) 5 rfl rfl)
    cases hb :
      ((EvictionTracker.new (EvictionPolicy.TimeToLive 5)).track_object 1 0).is_expired 1 5
    · rfl
    · exact absurd (hiff.mp hb) (by decide)
  · exact hu.2.2.1 rfl

/-- C3: on a rejecting validated return the closure bumps
validation_failures, clears the active entry and the eviction metadata and
discards the value (the queue and total_returned are untouched); on an
accepting return (validator accepts, or none configured) it touches the
eviction metadata, clears the active entry, pushes the entry back (the
bounded queue accepts it whenever it is not full) and bumps
total_returned. -/
theorem C3_return_protocol {T : Type} (st : ObjectPool T) (v : T) (id now : Nat) :
    (∀ f, st.config.validate_on_return = true → st.config.validation_function = some f →
      f v = false →
      ((st.return_fn v id now).metrics.validation_failures
          = st.metrics.validation_failures + 1 ∧
       (st.return_fn v id now).active = st.active.erase id ∧
       (st.return_fn v id now).eviction = st.eviction.remove_object id ∧
       (st.return_fn v id now).available = st.available ∧
       (st.return_fn v id now).metrics.total_returned = st.metrics.total_returned)) ∧
    ((st.config.validation_function = none ∨ st.config.validate_on_return = false ∨
        (∃ f, st.config.validation_function = some f ∧ f v = true)) →
      ((st.return_fn v id now).eviction = st.eviction.touch_object id now ∧
       (st.return_fn v id now).active = st.active.erase id ∧
       (st.return_fn v id now).available = pushDrop st.available st.capacity (v, id) ∧
       (st.available.length < st.capacity →
         (st.return_fn v id now).available = st.available ++ [(v, id)]) ∧
       (st.return_fn v id now).metrics.total_returned = st.metrics.total_returned + 1 ∧
       (st.return_fn v id now).metrics.validation_failures
          = st.metrics.validation_failures)) := by
  constructor
  · intro f hvor hvf hfv
    have hrej : rejectsReturn st.config v = true := by
      simp [rejectsReturn, hvor, hvf, hfv]
    simp [ObjectPool.return_fn, hrej]
  · intro hacc
    have hrej : rejectsReturn st.config v = false := by
      rcases hacc with h | h | ⟨f, hf, hfv⟩
      · simp [rejectsReturn, h]
      · simp [rejectsReturn, h]
      · simp [rejectsReturn, hf, hfv]
    refine ⟨?_, ?_, ?_, ?_, ?_, ?_⟩
    · simp [ObjectPool.return_fn, hrej]
    · simp [ObjectPool.return_fn, hrej]
    · simp [ObjectPool.return_fn, hrej]
    · intro hlen
      simp [ObjectPool.return_fn, hrej, pushDrop, hlen]
    · simp [ObjectPool.return_fn, hrej]
    · simp [ObjectPool.return_fn, hrej]

/-- C3 (witness): a returned value a false validator rejects is discarded
(validation_failures bumped, queue untouched), while a return without a
configured validator is pushed back and counted. -/
theorem C3_witness :
    ((ObjectPool.new [3] ((PoolConfiguration.default Nat).with_validation (fun _ => false))
        0).return_fn 3 0 0).metrics.validation_failures
      = (ObjectPool.new [3] ((PoolConfiguration.default Nat).with_validation (fun _ => false))
        0).metrics.validation_failures + 1 ∧
    ((ObjectPool.new [3] ((PoolConfiguration.default Nat).with_validation (fun _ => false))
        0).return_fn 3 0 0).available
      = (ObjectPool.new [3] ((PoolConfiguration.default Nat).with_validation (fun _ => false))
        0).available ∧
    ((ObjectPool.new [5] (PoolConfiguration.default Nat) 0).return_fn 5 0 0).available
      = (ObjectPool.new [5] (PoolConfiguration.default Nat) 0).available ++ [(5, 0)] ∧
    ((ObjectPool.new [5] (PoolConfiguration.default Nat) 0).return_fn 5 0 0).metrics.total_returned
      = (ObjectPool.new [5] (PoolConfiguration.default Nat) 0).metrics.total_returned + 1 := by
  have hR := (C3_return_protocol
    (ObjectPool.new [3] ((PoolConfiguration.default Nat).with_validation (fun _ => false)) 0)
    3 0 0).1 (fun _ => false) rfl rfl rfl
  have hA := (C3_return_protocol
    (ObjectPool.new [5] (PoolConfiguration.default Nat) 0) 5 0 0).2 (Or.inl rfl)
  exact ⟨hR.1, hR.2.2.2.1, hA.2.2.2.1 (by decide), hA.2.2.2.2.1⟩

/-- C7 (counterexample): extracting the single lease of a fresh pool does
not clear its active-set entry — the active set still has cardinality 1
after the unwrap and the subsequent (suppressed) drop, contradicting the
claim that extraction clears the entry. -/
theorem C7_counterexample :
    (((ObjectPool.new [7] (PoolConfiguration.default Nat) 0).get_object 0).1
        = Except.ok (7, 0)) ∧
    ((PooledObject.new (7 : Nat) 0).unwrap).1 = some 7 ∧
    (PooledObject.dropLease ((PooledObject.new (7 : Nat) 0).unwrap).2
        (((ObjectPool.new [7] (PoolConfiguration.default Nat) 0).get_object 0).2) 0).active.card
      = 1 := by
  exact ⟨by decide, rfl, by decide⟩

/-- C7 (amended): extraction (unwrap) yields the raw inner value and leaves
a consumed handle whose drop never invokes the return closure, so the value
is never pushed back and the whole pool state — including the active-set
entry for the lease's id, which is NOT cleared — is left unchanged. -/
theorem C7_amended_extraction {T : Type} (st : ObjectPool T) (po : PooledObject T) (v : T)
    (now : Nat) (h : po.value = some v) :
    po.unwrap = (some v, { po with value := none }) ∧
    PooledObject.dropLease (po.unwrap).2 st now = st ∧
    (po.object_id ∈ st.active →
      po.object_id ∈ (PooledObject.dropLease (po.unwrap).2 st now).active) := by
  refine ⟨?_, rfl, fun hm => hm⟩
  rw [PooledObject.unwrap, h]

/-- C7 (witness): the amended statement at the concrete lease of value 7
and id 0 over a fresh one-object pool. -/
theorem C7_witness :
    (PooledObject.new (7 : Nat) 0).unwrap
        = (some 7, { PooledObject.new (7 : Nat) 0 with value := none }) ∧
    PooledObject.dropLease ((PooledObject.new (7 : Nat) 0).unwrap).2
        (ObjectPool.new [7] (PoolConfiguration.default Nat) 0) 0
      = ObjectPool.new [7] (PoolConfiguration.default Nat) 0 ∧
    ((PooledObject.new (7 : Nat) 0).object_id
        ∈ (ObjectPool.new [7] (PoolConfiguration.default Nat) 0).active →
      (PooledObject.new (7 : Nat) 0).object_id
        ∈ (PooledObject.dropLease ((PooledObject.new (7 : Nat) 0).unwrap).2
            (ObjectPool.new [7] (PoolConfiguration.default Nat) 0) 0).active) :=
  C7_amended_extraction (ObjectPool.new [7] (PoolConfiguration.default Nat) 0)
    (PooledObject.new (7 : Nat) 0) 7 0 rfl

/-- C10: the dynamic pool surfaces no inner checkout error — its only error
is PoolFull — and whenever the inner fixed-pool checkout fails with any
error (PoolEmpty, MaxActiveObjectsReached or CircuitBreakerOpen alike,
since try_get_object collapses them all to None) while the active count is
below capacity, it manufactures a fresh object with the next id, tracks
and activates it and counts it as retrieved. -/
theorem C10_dynamic_creation {T : Type} (dp : DynamicObjectPool T) (now : Nat) :
    (∀ e, (dp.get_object now).1 = Except.error e → e = PoolError.PoolFull) ∧
    (∀ e st2, dp.inner.get_object now = (Except.error e, st2) →
      st2.active.card < st2.capacity →
      ((dp.get_object now).1 = Except.ok (dp.factory (), st2.next_id) ∧
       (dp.get_object now).2.inner.active = insert st2.next_id st2.active ∧
       (dp.get_object now).2.inner.metrics.total_retrieved
          = st2.metrics.total_retrieved + 1 ∧
       (dp.get_object now).2.inner.eviction = st2.eviction.track_object st2.next_id now ∧
       (dp.get_object now).2.inner.next_id = st2.next_id + 1)) := by
  constructor
  · intro e he
    unfold DynamicObjectPool.get_object ObjectPool.try_get_object at he
    rcases hg : dp.inner.get_object now with ⟨r, st2⟩
    rw [hg] at he
    cases r with
    | ok p => simp at he
    | error e2 =>
      simp only at he
      by_cases hc : st2.active.card < st2.capacity
      · rw [if_pos hc] at he
        simp at he
      · rw [if_neg hc] at he
        simp at he
        exact he.symm
  · intro e st2 hg hc
    unfold DynamicObjectPool.get_object ObjectPool.try_get_object
    rw [hg]
    simp only
    rw [if_pos hc]
    exact ⟨rfl, rfl, rfl, rfl, rfl⟩

/-- C10 (witness): with max_active_objects = 0 and capacity 1, the inner
checkout fails with MaxActiveObjectsReached, yet the dynamic pool
manufactures and returns a fresh object — the cap does not prevent dynamic
creation and the caller never sees the error. -/
theorem C10_witness :
    ((DynamicObjectPool.new (fun _ => (99 : Nat))
        (((PoolConfiguration.default Nat).with_max_pool_size 1).with_max_active_objects 0)
        0).get_object 0).1 = Except.ok (99, 1) := by
  have h := (C10_dynamic_creation (DynamicObjectPool.new (fun _ => (99 : Nat))
      (((PoolConfiguration.default Nat).with_max_pool_size 1).with_max_active_objects 0) 0)
      0).2 PoolError.MaxActiveObjectsReached _ rfl (by decide)
  exact h.1

/-! ## The pop loop equals the flattened drain -/

lemma popDiscardLoop_eq_drain {T : Type} (now : Nat) :
    ∀ (l : List (T × Nat)) (st : ObjectPool T), st.available = l →
      popDiscardLoop now st =
        (match drainExpired now st.eviction l with
         | (none, ev) =>
             (Except.error PoolError.PoolEmpty,
              emptyFailureEffects { st with available := [], eviction := ev } now)
         | (some (e, rest), ev) =>
             (Except.ok e,
              leaseSuccessEffects { st with available := rest, eviction := ev } e.2 now)) := by
  intro l
  induction l with
  | nil =>
    intro st h
    rw [popDiscardLoop.eq_def]
    split
    · simp only [drainExpired]
      have hst : { st with available := ([] : List (T × Nat)), eviction := st.eviction } = st := by
        rw [← h]
      rw [hst]
    · simp_all
  | cons e tl ih =>
    intro st h
    rw [popDiscardLoop.eq_def]
    split
    · simp_all
    · rename_i e2 rest2 heq
      rw [h] at heq
      cases heq
      by_cases hex : st.eviction.is_expired e.2 now
      · rw [if_pos hex]
        simp only [drainExpired, hex, if_true]
        exact ih { st with available := tl, eviction := st.eviction.remove_object e.2 } rfl
      · rw [if_neg hex]
        simp only [drainExpired, hex]
        simp

/-- C2: `get_object` coincides, state included, with the checkout narrated
by the claim — the circuit-breaker admission check (failing with
CircuitBreakerOpen) first, then the max-active check (failing with
MaxActiveObjectsReached once the active count has reached the cap), then
the pop loop that discards expired entries, ending either in the
PoolEmpty failure effects or in the lease-production effects. -/
theorem C2_checkout_refines_spec {T : Type} (st : ObjectPool T) (now : Nat) :
    st.get_object now = st.checkoutSpec now := by
  unfold ObjectPool.get_object ObjectPool.checkoutSpec
  rcases hc : st.check_circuit_breaker now with ⟨r, cb2⟩
  cases r with
  | error e => simp [hc]
  | ok u =>
    simp only [hc]
    cases hm : (ObjectPool.check_max_active { st with circuit_breaker := cb2 }) with
    | error e => simp [hm]
    | ok u2 =>
      simp only [hm]
      rw [popDiscardLoop_eq_drain now ({ st with circuit_breaker := cb2 }).available
        { st with circuit_breaker := cb2 } rfl]
      rcases hd : drainExpired now ({ st with circuit_breaker := cb2 }).eviction
          ({ st with circuit_breaker := cb2 }).available with ⟨res, ev⟩
      cases res with
      | none => simp [hd, emptyFailureEffects]
      | some p => rcases p with ⟨e2, rest⟩; simp [hd, leaseSuccessEffects]

/-! ## Lemmas about pool construction and the eviction tracker -/

lemma track_object_policy (tr : EvictionTracker) (id now : Nat) :
    (tr.track_object id now).policy = tr.policy := by
  unfold EvictionTracker.track_object
  split <;> rfl

lemma is_expired_none (tr : EvictionTracker) (id now : Nat)
    (h : tr.policy = EvictionPolicy.None) : tr.is_expired id now = false := by
  simp [EvictionTracker.is_expired, h, EvictionPolicy.isNonePolicy]

lemma touch_object_none (tr : EvictionTracker) (id now : Nat)
    (h : tr.policy = EvictionPolicy.None) : tr.touch_object id now = tr := by
  simp [EvictionTracker.touch_object, h, EvictionPolicy.isNonePolicy]

lemma initStep_foldl_queue {T : Type} (cap now : Nat) :
    ∀ (l : List (Nat × T)) (acc : EvictionTracker × List (T × Nat)),
      acc.2.length + l.length ≤ cap →
      (l.foldl (initStep cap now) acc).2 = acc.2 ++ l.map (fun p => (p.2, p.1)) := by
  intro l
  induction l with
  | nil => intro acc h; simp
  | cons p tl ih =>
    intro acc h
    rw [List.foldl_cons]
    have hlen : acc.2.length < cap := by
      simp at h
      omega
    have hstep : (initStep cap now acc p).2 = acc.2 ++ [(p.2, p.1)] := by
      simp [initStep, pushDrop, hlen]
    have hrec := ih (initStep cap now acc p) (by
      rw [hstep]
      simp at h ⊢
      omega)
    rw [hrec, hstep]
    simp

lemma initStep_foldl_policy {T : Type} (cap now : Nat) :
    ∀ (l : List (Nat × T)) (acc : EvictionTracker × List (T × Nat)),
      (l.foldl (initStep cap now) acc).1.policy = acc.1.policy := by
  intro l
  induction l with
  | nil => intro acc; rfl
  | cons p tl ih =>
    intro acc
    rw [List.foldl_cons, ih]
    exact track_object_policy acc.1 p.1 now

lemma new_available {T : Type} (objects : List T) (cfg : PoolConfiguration T) (now : Nat) :
    (ObjectPool.new objects cfg now).available
      = objects.enum.map (fun p => (p.2, p.1)) := by
  unfold ObjectPool.new
  simp only
  rw [initStep_foldl_queue _ _ objects.enum _ (by simp [List.enum_length])]
  simp

lemma new_available_length {T : Type} (objects : List T) (cfg : PoolConfiguration T)
    (now : Nat) :
    (ObjectPool.new objects cfg now).available.length = objects.length := by
  rw [new_available]
  simp [List.enum_length]

lemma new_eviction_policy {T : Type} (objects : List T) (cfg : PoolConfiguration T)
    (now : Nat) :
    (ObjectPool.new objects cfg now).eviction.policy = evictionPolicyOfConfig cfg := by
  unfold ObjectPool.new
  simp only
  rw [initStep_foldl_policy]
  rfl

/-! ## One checkout-then-drop cycle under the default-like state class -/

lemma cycle_eq {T : Type} (st : ObjectPool T) (now : Nat) (e : T × Nat) (tl : List (T × Nat))
    (hav : st.available = e :: tl)
    (hcb : st.circuit_breaker = none)
    (hma : st.config.max_active_objects = none)
    (hvr : st.config.validate_on_return = false)
    (hpol : st.eviction.policy = EvictionPolicy.None)
    (hcap : tl.length < st.capacity) :
    checkoutDropCycle st now =
      { st with
        available := tl ++ [e]
        active := (insert e.2 st.active).erase e.2
        metrics := { st.metrics with
          total_retrieved := st.metrics.total_retrieved + 1
          total_returned := st.metrics.total_returned + 1 }
        health := { st.health with
          total_retrieved := st.health.total_retrieved + 1
          total_returned := st.health.total_returned + 1 } } := by
  have hexp := is_expired_none st.eviction e.2 now hpol
  have htch := touch_object_none st.eviction e.2 now hpol
  have hrej : rejectsReturn st.config e.1 = false := by
    simp [rejectsReturn, hvr]
  unfold checkoutDropCycle ObjectPool.get_object ObjectPool.check_circuit_breaker
  simp only [hcb]
  simp only [ObjectPool.check_max_active, hma]
  simp only [hav, drainExpired, hexp, Bool.false_eq_true, if_false]
  simp only [ObjectPool.cbRecordSuccess, hcb, Option.map_none, htch]
  simp only [ObjectPool.return_fn, hrej, Bool.false_eq_true, if_false, htch]
  simp only [pushDrop]
  rw [if_pos (by simpa using hcap)]
  simp

lemma iter_cycle_inv {T : Type} (N now : Nat) (hN : 1 ≤ N) :
    ∀ (k m : Nat) (st : ObjectPool T), CycleInv N m st →
      CycleInv N (m + k) (iterCycles st now k) := by
  intro k
  induction k with
  | zero => intro m st h; simpa [iterCycles] using h
  | succ k ih =>
    intro m st h
    obtain ⟨hlen, hact, hret, hretn, hcb, hma, hvr, hpol, hcap⟩ := h
    rcases hav : st.available with _ | ⟨e, tl⟩
    · rw [hav] at hlen
      simp at hlen
      omega
    · have htl : tl.length = N - 1 := by
        rw [hav] at hlen
        simp at hlen
        omega
      have hstep := cycle_eq st now e tl hav hcb hma hvr hpol (by omega)
      have hinv2 : CycleInv N (m + 1) (checkoutDropCycle st now) := by
        rw [hstep]
        refine ⟨?_, ?_, ?_, ?_, ?_, ?_, ?_, ?_, ?_⟩
        · simp
          omega
        · simp only
          rw [hact]
          exact Finset.erase_insert (by simp)
        · simp [hret]
        · simp [hretn]
        · simpa using hcb
        · simpa using hma
        · simpa using hvr
        · simpa using hpol
        · simpa using hcap
      have hrec := ih (m + 1) (checkoutDropCycle st now) hinv2
      rw [iterCycles]
      have harith : m + (k + 1) = m + 1 + k := by omega
      rw [harith]
      exact hrec

/-- C9: building a fixed pool from N objects under the default
configuration and running k*N sequential checkout-then-drop cycles leaves
available_count = N and drives total_retrieved and total_returned both to
k*N. -/
theorem C9_roundtrip {T : Type} (objects : List T) (k : Nat) :
    (iterCycles (ObjectPool.new objects (PoolConfiguration.default T) 0) 0
        (k * objects.length)).available_count = objects.length ∧
    (iterCycles (ObjectPool.new objects (PoolConfiguration.default T) 0) 0
        (k * objects.length)).metrics.total_retrieved = k * objects.length ∧
    (iterCycles (ObjectPool.new objects (PoolConfiguration.default T) 0) 0
        (k * objects.length)).metrics.total_returned = k * objects.length := by
  by_cases hN : 1 ≤ objects.length
  · have hinit : CycleInv objects.length 0
        (ObjectPool.new objects (PoolConfiguration.default T) 0) := by
      refine ⟨new_available_length objects _ 0, rfl, rfl, rfl, rfl, rfl, rfl, ?_, ?_⟩
      · rw [new_eviction_policy]
        rfl
      · exact Nat.le_max_left _ _
    have h := iter_cycle_inv objects.length 0 hN (k * objects.length) 0
      (ObjectPool.new objects (PoolConfiguration.default T) 0) hinit
    obtain ⟨h1, _, h3, h4, _⟩ := h
    exact ⟨h1, by simpa using h3, by simpa using h4⟩
  · have hlen : objects.length = 0 := by omega
    rw [hlen, Nat.mul_zero]
    rw [List.length_eq_zero] at hlen
    subst hlen
    exact ⟨rfl, rfl, rfl⟩

/-! ## Capacity-zero pools (claim C8) -/

lemma empty_zero_check_max {T : Type} (cfg : PoolConfiguration T)
    (hma : ∀ k, cfg.max_active_objects = some k → 1 ≤ k)
    (st : ObjectPool T) (hact : st.active = ∅) (hcfg : st.config = cfg) :
    ObjectPool.check_max_active { st with circuit_breaker := (none : Option CircuitBreaker) }
      = Except.ok () := by
  unfold ObjectPool.check_max_active
  simp only [hcfg]
  cases hmao : cfg.max_active_objects with
  | none => rfl
  | some kk =>
    have hk := hma kk hmao
    have hk0 : ¬ st.active.card ≥ kk := by
      simp [hact]
      omega
    simp [hk0]

lemma empty_zero_get_eq {T : Type} (st : ObjectPool T) (now : Nat)
    (hav : st.available = []) (hcb : st.circuit_breaker = none)
    (hmaxok :
      ObjectPool.check_max_active { st with circuit_breaker := (none : Option CircuitBreaker) }
        = Except.ok ()) :
    st.get_object now =
      (Except.error PoolError.PoolEmpty,
       { st with
         circuit_breaker := none
         available := []
         metrics := { st.metrics with pool_empty_events := st.metrics.pool_empty_events + 1 }
         health := { st.health with pool_empty_count := st.health.pool_empty_count + 1 } }) := by
  unfold ObjectPool.get_object ObjectPool.check_circuit_breaker
  simp only [hcb]
  rw [hmaxok]
  simp only [hav, drainExpired]
  simp [ObjectPool.cbRecordFailure]

lemma empty_zero_get {T : Type} (cfg : PoolConfiguration T)
    (hma : ∀ k, cfg.max_active_objects = some k → 1 ≤ k)
    (st : ObjectPool T) (now : Nat) (h : EmptyZeroInv cfg st) :
    (st.get_object now).1 = Except.error PoolError.PoolEmpty ∧
    EmptyZeroInv cfg (st.get_object now).2 := by
  obtain ⟨hav, hact, hcb, hcfg, hcap⟩ := h
  rw [empty_zero_get_eq st now hav hcb (empty_zero_check_max cfg hma st hact hcfg)]
  exact ⟨rfl, rfl, hact, rfl, hcfg, hcap⟩

lemma runCheckouts_empty_zero {T : Type} (cfg : PoolConfiguration T)
    (hma : ∀ k, cfg.max_active_objects = some k → 1 ≤ k) :
    ∀ (times : List Nat) (st : ObjectPool T),
      EmptyZeroInv cfg st → EmptyZeroInv cfg (runCheckouts st times) := by
  intro times
  induction times with
  | nil => intro st h; exact h
  | cons t rest ih =>
    intro st h
    rw [runCheckouts]
    exact ih _ (empty_zero_get cfg hma st t h).2

lemma dyn_empty_zero_get {T : Type} (cfg : PoolConfiguration T)
    (hma : ∀ k, cfg.max_active_objects = some k → 1 ≤ k)
    (dp : DynamicObjectPool T) (now : Nat) (h : EmptyZeroInv cfg dp.inner) :
    (dp.get_object now).1 = Except.error PoolError.PoolFull ∧
    EmptyZeroInv cfg (dp.get_object now).2.inner := by
  obtain ⟨hav, hact, hcb, hcfg, hcap⟩ := h
  unfold DynamicObjectPool.get_object ObjectPool.try_get_object
  rw [empty_zero_get_eq dp.inner now hav hcb
    (empty_zero_check_max cfg hma dp.inner hact hcfg)]
  simp only
  rw [if_neg (by simp [hact, hcap])]
  exact ⟨rfl, rfl, hact, rfl, hcfg, hcap⟩

lemma runDynCheckouts_empty_zero {T : Type} (cfg : PoolConfiguration T)
    (hma : ∀ k, cfg.max_active_objects = some k → 1 ≤ k) :
    ∀ (times : List Nat) (dp : DynamicObjectPool T),
      EmptyZeroInv cfg dp.inner → EmptyZeroInv cfg (runDynCheckouts dp times).inner := by
  intro times
  induction times with
  | nil => intro dp h; exact h
  | cons t rest ih =>
    intro dp h
    rw [runDynCheckouts]
    exact ih _ (dyn_empty_zero_get cfg hma dp t h).2

/-- C8 (counterexample): with capacity 0 and a circuit breaker of threshold
1, the first checkout fails with PoolEmpty and records a breaker failure,
so the second checkout fails with CircuitBreakerOpen — not PoolEmpty as the
claim requires of every checkout. -/
theorem C8_counterexample :
    (ObjectPool.new ([] : List Nat)
        (((PoolConfiguration.default Nat).with_max_pool_size 0).with_circuit_breaker 1 60)
        0).capacity = 0 ∧
    ((ObjectPool.new ([] : List Nat)
        (((PoolConfiguration.default Nat).with_max_pool_size 0).with_circuit_breaker 1 60)
        0).get_object 0).1 = Except.error PoolError.PoolEmpty ∧
    (((ObjectPool.new ([] : List Nat)
        (((PoolConfiguration.default Nat).with_max_pool_size 0).with_circuit_breaker 1 60)
        0).get_object 0).2.get_object 0).1 = Except.error PoolError.CircuitBreakerOpen := by
  exact ⟨rfl, by decide, by decide⟩

/-- C8 (amended): a pool of capacity 0 (no initial objects and
max_pool_size 0) is constructed with capacity 0 and reports utilization 0;
provided the admission checks pass — circuit breaker disabled and any
configured max_active_objects positive — every fixed-pool checkout, after
any number of previous checkouts, yields PoolEmpty (with a breaker enabled
the checkouts after threshold-many failures yield CircuitBreakerOpen
instead, and with max_active_objects = 0 they yield
MaxActiveObjectsReached); every dynamic-pool checkout yields PoolFull. -/
theorem C8_amended_capacity_zero (cfg : PoolConfiguration Nat) (f : Unit → Nat)
    (hmps : cfg.max_pool_size = 0)
    (hcbe : cfg.enable_circuit_breaker = false)
    (hma : ∀ k, cfg.max_active_objects = some k → 1 ≤ k)
    (times : List Nat) (now : Nat) :
    (ObjectPool.new ([] : List Nat) cfg 0).capacity = 0 ∧
    ((runCheckouts (ObjectPool.new ([] : List Nat) cfg 0) times).get_object now).1
        = Except.error PoolError.PoolEmpty ∧
    (ObjectPool.new ([] : List Nat) cfg 0).get_metrics.utilization = 0 ∧
    ((runDynCheckouts (DynamicObjectPool.new f cfg 0) times).get_object now).1
        = Except.error PoolError.PoolFull := by
  have hcap0 : (ObjectPool.new ([] : List Nat) cfg 0).capacity = 0 := by
    simp [ObjectPool.new, hmps]
  have hinit : EmptyZeroInv cfg (ObjectPool.new ([] : List Nat) cfg 0) := by
    refine ⟨?_, rfl, ?_, rfl, hcap0⟩
    · rw [new_available]
      rfl
    · simp [ObjectPool.new, hcbe]
  refine ⟨hcap0, ?_, ?_, ?_⟩
  · exact (empty_zero_get cfg hma _ now
      (runCheckouts_empty_zero cfg hma times _ hinit)).1
  · simp [ObjectPool.get_metrics, MetricsTracker.get_metrics, hcap0]
  · exact (dyn_empty_zero_get cfg hma _ now
      (runDynCheckouts_empty_zero cfg hma times (DynamicObjectPool.new f cfg 0) hinit)).1

/-- C8 (witness): the amended statement at the all-default configuration
with max_pool_size 0, after two prior checkouts, probing at time 5. -/
theorem C8_witness :
    (ObjectPool.new ([] : List Nat) ((PoolConfiguration.default Nat).with_max_pool_size 0)
        0).capacity = 0 ∧
    ((runCheckouts (ObjectPool.new ([] : List Nat)
        ((PoolConfiguration.default Nat).with_max_pool_size 0) 0) [0, 1]).get_object 5).1
        = Except.error PoolError.PoolEmpty ∧
    (ObjectPool.new ([] : List Nat) ((PoolConfiguration.default Nat).with_max_pool_size 0)
        0).get_metrics.utilization = 0 ∧
    ((runDynCheckouts (DynamicObjectPool.new (fun _ => (3 : Nat))
        ((PoolConfiguration.default Nat).with_max_pool_size 0) 0) [0, 1]).get_object 5).1
        = Except.error PoolError.PoolFull := by
  exact C8_amended_capacity_zero ((PoolConfiguration.default Nat).with_max_pool_size 0)
    (fun _ => (3 : Nat)) rfl rfl (fun k h => by cases h) [0, 1] 5

/-! ## List bookkeeping lemmas for operation histories -/

lemma map_snd_eraseIdx {α β : Type} :
    ∀ (l : List (α × β)) (i : Nat),
      (l.eraseIdx i).map Prod.snd = (l.map Prod.snd).eraseIdx i := by
  intro l
  induction l with
  | nil => intro i; simp
  | cons p tl ih =>
    intro i
    cases i with
    | zero => simp
    | succ j => simp [List.eraseIdx_cons_succ, ih j]

lemma nodup_not_mem_eraseIdx {α : Type} :
    ∀ (xs : List α) (i : Nat) (a : α), xs.Nodup → xs[i]? = some a → a ∉ xs.eraseIdx i := by
  intro xs
  induction xs with
  | nil => intro i a _ h; simp at h
  | cons b tl ih =>
    intro i a hnd hga
    cases i with
    | zero =>
      simp at hga
      subst hga
      simpa using (List.nodup_cons.mp hnd).1
    | succ j =>
      simp at hga
      have htl := ih j a (List.nodup_cons.mp hnd).2 hga
      simp only [List.eraseIdx_cons_succ]
      intro hmem
      rcases List.mem_cons.mp hmem with hb | hin
      · subst hb
        exact (List.nodup_cons.mp hnd).1 (List.getElem?_mem hga)
      · exact htl hin

lemma drainExpired_sublist {T : Type} (now : Nat) :
    ∀ (l : List (T × Nat)) (ev : EvictionTracker) (e : T × Nat) (rest : List (T × Nat))
      (ev2 : EvictionTracker),
      drainExpired now ev l = (some (e, rest), ev2) →
      List.Sublist (e.2 :: rest.map Prod.snd) (l.map Prod.snd) := by
  intro l
  induction l with
  | nil =>
    intro ev e rest ev2 h
    simp [drainExpired] at h
  | cons p tl ih =>
    intro ev e rest ev2 h
    rw [drainExpired] at h
    by_cases hex : ev.is_expired p.2 now
    · rw [if_pos hex] at h
      exact List.Sublist.cons p.2 (ih _ e rest ev2 h)
    · rw [if_neg hex] at h
      injection h with h1 h2
      injection h1 with h3
      injection h3 with h4 h5
      subst h4
      subst h5
      exact List.Sublist.refl _

/-! ## The effects of one checkout, as needed for the history invariant -/

lemma get_object_effects {T : Type} (st : ObjectPool T) (now : Nat) :
    (st.get_object now).2.metrics.total_returned = st.metrics.total_returned ∧
    (st.get_object now).2.metrics.validation_failures = st.metrics.validation_failures ∧
    (((∃ err, (st.get_object now).1 = Except.error err) ∧
      (st.get_object now).2.active = st.active ∧
      (st.get_object now).2.metrics.total_retrieved = st.metrics.total_retrieved ∧
      List.Sublist (availIds (st.get_object now).2) (availIds st)) ∨
     (∃ v id rest,
      (st.get_object now).1 = Except.ok (v, id) ∧
      (st.get_object now).2.active = insert id st.active ∧
      (st.get_object now).2.available = rest ∧
      List.Sublist (id :: rest.map Prod.snd) (availIds st) ∧
      (st.get_object now).2.metrics.total_retrieved = st.metrics.total_retrieved + 1)) := by
  unfold ObjectPool.get_object ObjectPool.check_circuit_breaker
  rcases hcb : st.circuit_breaker with _ | cb
  case none =>
    simp only
    rcases hd : drainExpired now st.eviction st.available with ⟨res, ev⟩
    cases hma : ObjectPool.check_max_active { st with circuit_breaker := (none : Option CircuitBreaker) } with
    | error e =>
      simp only [hma]
      refine ⟨trivial, trivial, Or.inl ⟨⟨e, rfl⟩, trivial, trivial, ?_⟩⟩
      simp only [availIds]
      exact List.Sublist.refl _
    | ok u =>
      simp only [hma]
      cases res with
      | none =>
        simp only [hd, ObjectPool.cbRecordFailure]
        refine ⟨trivial, trivial, Or.inl ⟨⟨PoolError.PoolEmpty, rfl⟩, trivial, trivial, ?_⟩⟩
        simp [availIds]
      | some pr =>
        rcases pr with ⟨e2, rest⟩
        simp only [hd, ObjectPool.cbRecordSuccess]
        refine ⟨trivial, trivial, Or.inr ⟨e2.1, e2.2, rest, rfl, rfl, rfl, ?_, trivial⟩⟩
        exact drainExpired_sublist now st.available st.eviction e2 rest ev hd
  case some =>
    by_cases hall : (cb.allow_request now).1
    · simp only [hall, if_true]
      rcases hd : drainExpired now st.eviction st.available with ⟨res, ev⟩
      cases hma : ObjectPool.check_max_active
          { st with circuit_breaker := some (cb.allow_request now).2 } with
      | error e =>
        simp only [hma]
        refine ⟨trivial, trivial, Or.inl ⟨⟨e, rfl⟩, trivial, trivial, ?_⟩⟩
        simp only [availIds]
        exact List.Sublist.refl _
      | ok u =>
        simp only [hma]
        cases res with
        | none =>
          simp only [hd, ObjectPool.cbRecordFailure]
          refine ⟨trivial, trivial, Or.inl ⟨⟨PoolError.PoolEmpty, rfl⟩, trivial, trivial, ?_⟩⟩
          simp [availIds]
        | some pr =>
          rcases pr with ⟨e2, rest⟩
          simp only [hd, ObjectPool.cbRecordSuccess]
          refine ⟨trivial, trivial, Or.inr ⟨e2.1, e2.2, rest, rfl, rfl, rfl, ?_, trivial⟩⟩
          exact drainExpired_sublist now st.available st.eviction e2 rest ev hd
    · simp only [hall, Bool.false_eq_true, if_false]
      refine ⟨trivial, trivial, Or.inl ⟨⟨PoolError.CircuitBreakerOpen, rfl⟩, trivial, trivial, ?_⟩⟩
      simp only [availIds]
      exact List.Sublist.refl _

/-! ## Preservation of the history invariant -/

lemma step_world_inv {T : Type} (w : PoolWorld T) (op : PoolOp T) (h : WorldInv w) :
    WorldInv (w.step op) := by
  obtain ⟨hcnt, hnd, hdisj, hout, hond⟩ := h
  cases op with
  | checkout now =>
    simp only [PoolWorld.step]
    have heff := get_object_effects w.pool now
    rcases hg : w.pool.get_object now with ⟨r, st2⟩
    rw [hg] at heff
    dsimp only at heff
    obtain ⟨hret, hvf, hcase⟩ := heff
    cases r with
    | error e =>
      rcases hcase with ⟨_, hact, hretr, hsub⟩ | ⟨v, id, rest, hok, _⟩
      · refine ⟨?_, ?_, ?_, ?_, ?_⟩
        · show st2.metrics.total_retrieved = _
          rw [hret, hvf, hact, hretr]
          exact hcnt
        · exact List.Nodup.sublist hsub hnd
        · intro i hi
          rw [hact]
          exact hdisj i (hsub.subset hi)
        · intro q hq
          rw [hact]
          exact hout q hq
        · exact hond
      · simp at hok
    | ok p =>
      rcases hcase with ⟨⟨err, herr⟩, _⟩ | ⟨v, id, rest, hok, hact, hav, hsub, hretr⟩
      · simp at herr
      · injection hok with hpv
        subst hpv
        have hsubnd := List.Nodup.sublist hsub hnd
        have hidnotrest : id ∉ rest.map Prod.snd := (List.nodup_cons.mp hsubnd).1
        have hidin : id ∈ availIds w.pool := hsub.subset (List.mem_cons_self id _)
        have hidnotact : id ∉ w.pool.active := hdisj id hidin
        have hids2 : availIds st2 = rest.map Prod.snd := by
          simp [availIds, hav]
        refine ⟨?_, ?_, ?_, ?_, ?_⟩
        · show st2.metrics.total_retrieved = _
          rw [hret, hvf, hact, hretr, Finset.card_insert_of_not_mem hidnotact]
          omega
        · rw [hids2]
          exact (List.nodup_cons.mp hsubnd).2
        · intro i hi
          rw [hids2] at hi
          have hiold : i ∉ w.pool.active :=
            hdisj i (hsub.subset (List.mem_cons_of_mem id hi))
          have hine : i ≠ id := fun hieq => hidnotrest (hieq ▸ hi)
          rw [hact]
          simp only [Finset.mem_insert]
          rintro (hieq | hmem)
          · exact hine hieq
          · exact hiold hmem
        · intro q hq
          rcases List.mem_append.mp hq with hq1 | hq2
          · rw [hact]
            exact Finset.mem_insert_of_mem (hout q hq1)
          · have hqv : q = (v, id) := by simpa using hq2
            subst hqv
            show id ∈ st2.active
            rw [hact]
            exact Finset.mem_insert_self id w.pool.active
        · simp only [List.map_append, List.map_cons, List.map_nil]
          rw [List.nodup_append]
          refine ⟨hond, List.nodup_singleton _, ?_⟩
          intro a ha hb
          have hab : a = id := by simpa using hb
          subst hab
          rcases List.mem_map.mp ha with ⟨q, hq, hqa⟩
          exact hidnotact (hqa ▸ hout q hq)
  | ret idx now =>
    simp only [PoolWorld.step]
    cases hq : w.outstanding[idx]? with
    | none => exact ⟨hcnt, hnd, hdisj, hout, hond⟩
    | some p =>
      have hpmem : p ∈ w.outstanding := List.getElem?_mem hq
      have hpact : p.2 ∈ w.pool.active := hout p hpmem
      have hpnotavail : p.2 ∉ availIds w.pool := fun hmem => hdisj p.2 hmem hpact
      have hmapq : (w.outstanding.map Prod.snd)[idx]? = some p.2 := by
        rw [List.getElem?_map, hq]
        rfl
      have hnotmem := nodup_not_mem_eraseIdx (w.outstanding.map Prod.snd) idx p.2 hond hmapq
      have herased : (w.outstanding.eraseIdx idx).map Prod.snd
          = (w.outstanding.map Prod.snd).eraseIdx idx := map_snd_eraseIdx _ _
      have houtsub : ∀ q ∈ w.outstanding.eraseIdx idx,
          q.2 ∈ w.pool.active ∧ q.2 ≠ p.2 := by
        intro q hqin
        refine ⟨hout q (List.eraseIdx_subset _ _ hqin), ?_⟩
        intro hqeq
        apply hnotmem
        rw [← herased]
        exact hqeq ▸ List.mem_map_of_mem Prod.snd hqin
      have hce := Finset.card_erase_add_one hpact
      have hondsub : ((w.outstanding.eraseIdx idx).map Prod.snd).Nodup := by
        rw [herased]
        exact List.Nodup.sublist (List.eraseIdx_sublist _ _) hond
      show WorldInv
        { pool := w.pool.return_fn p.1 p.2 now
          outstanding := w.outstanding.eraseIdx idx
          extracted := w.extracted }
      by_cases hrej : rejectsReturn w.pool.config p.1
      · have hpool : w.pool.return_fn p.1 p.2 now =
            { w.pool with
              metrics := { w.pool.metrics with
                validation_failures := w.pool.metrics.validation_failures + 1 }
              active := w.pool.active.erase p.2
              eviction := w.pool.eviction.remove_object p.2 } := by
          unfold ObjectPool.return_fn
          rw [if_pos hrej]
        rw [hpool]
        refine ⟨?_, hnd, ?_, ?_, hondsub⟩
        · simp only
          omega
        · intro i hi
          exact fun hmem => hdisj i hi (Finset.mem_of_mem_erase hmem)
        · intro q hqin
          exact Finset.mem_erase.mpr ⟨(houtsub q hqin).2, (houtsub q hqin).1⟩
      · have hrejf : rejectsReturn w.pool.config p.1 = false := by
          revert hrej
          cases rejectsReturn w.pool.config p.1 <;> simp
        have hpool : w.pool.return_fn p.1 p.2 now =
            { w.pool with
              eviction := w.pool.eviction.touch_object p.2 now
              active := w.pool.active.erase p.2
              available := pushDrop w.pool.available w.pool.capacity (p.1, p.2)
              metrics := { w.pool.metrics with
                total_returned := w.pool.metrics.total_returned + 1 }
              health := { w.pool.health with
                total_returned := w.pool.health.total_returned + 1 } } := by
          unfold ObjectPool.return_fn
          rw [if_neg hrej]
        rw [hpool]
        have hids : availIds
              { w.pool with
                eviction := w.pool.eviction.touch_object p.2 now
                active := w.pool.active.erase p.2
                available := pushDrop w.pool.available w.pool.capacity (p.1, p.2)
                metrics := { w.pool.metrics with
                  total_returned := w.pool.metrics.total_returned + 1 }
                health := { w.pool.health with
                  total_returned := w.pool.health.total_returned + 1 } }
            = availIds w.pool ++ [p.2] ∨
            availIds
              { w.pool with
                eviction := w.pool.eviction.touch_object p.2 now
                active := w.pool.active.erase p.2
                available := pushDrop w.pool.available w.pool.capacity (p.1, p.2)
                metrics := { w.pool.metrics with
                  total_returned := w.pool.metrics.total_returned + 1 }
                health := { w.pool.health with
                  total_returned := w.pool.health.total_returned + 1 } }
            = availIds w.pool := by
          by_cases hfull : w.pool.available.length < w.pool.capacity
          · left
            simp [availIds, pushDrop, hfull]
          · right
            simp [availIds, pushDrop, hfull]
        refine ⟨?_, ?_, ?_, ?_, hondsub⟩
        · simp only
          omega
        · rcases hids with hids | hids
          · rw [hids, List.nodup_append]
            refine ⟨hnd, List.nodup_singleton _, ?_⟩
            intro a ha hb
            have hab : a = p.2 := by simpa using hb
            subst hab
            exact hpnotavail ha
          · rw [hids]
            exact hnd
        · intro i hi
          rcases hids with hids | hids
          · rw [hids] at hi
            rcases List.mem_append.mp hi with hi1 | hi2
            · exact fun hmem => hdisj i hi1 (Finset.mem_of_mem_erase hmem)
            · have hip : i = p.2 := by simpa using hi2
              subst hip
              exact Finset.not_mem_erase p.2 w.pool.active
          · rw [hids] at hi
            exact fun hmem => hdisj i hi (Finset.mem_of_mem_erase hmem)
        · intro q hqin
          exact Finset.mem_erase.mpr ⟨(houtsub q hqin).2, (houtsub q hqin).1⟩
  | extract idx =>
    simp only [PoolWorld.step]
    cases hq : w.outstanding[idx]? with
    | none => exact ⟨hcnt, hnd, hdisj, hout, hond⟩
    | some p =>
      refine ⟨hcnt, hnd, hdisj, ?_, ?_⟩
      · intro q hqin
        exact hout q (List.eraseIdx_subset _ _ hqin)
      · rw [map_snd_eraseIdx]
        exact List.Nodup.sublist (List.eraseIdx_sublist _ _) hond

lemma run_world_inv {T : Type} :
    ∀ (ops : List (PoolOp T)) (w : PoolWorld T), WorldInv w → WorldInv (w.run ops) := by
  intro ops
  induction ops with
  | nil => intro w h; exact h
  | cons op rest ih =>
    intro w h
    rw [PoolWorld.run]
    exact ih _ (step_world_inv w op h)

lemma init_world_inv {T : Type} (objects : List T) (cfg : PoolConfiguration T) (now : Nat) :
    WorldInv (PoolWorld.init objects cfg now) := by
  have hav : availIds (ObjectPool.new objects cfg now) = objects.enum.map Prod.fst := by
    unfold availIds
    rw [new_available, List.map_map]
    rfl
  refine ⟨?_, ?_, ?_, ?_, ?_⟩
  · simp [PoolWorld.init, ObjectPool.new, MetricsTracker.new]
  · show (availIds (ObjectPool.new objects cfg now)).Nodup
    rw [hav]
    exact List.nodup_enum_map_fst objects
  · intro i hi
    show i ∉ (ObjectPool.new objects cfg now).active
    simp [ObjectPool.new]
  · intro q hq
    simp [PoolWorld.init] at hq
  · simp [PoolWorld.init]

/-- C1 (counterexample): with a validator that always rejects, one checkout
followed by the lease's return discards the value permanently —
total_retrieved = 1, total_returned = 0, the active set empty, nothing
extracted by the caller — so total_retrieved minus total_returned (= 1)
differs from active size plus extractions (= 0), refuting the claimed
identity. -/
theorem C1_counterexample :
    (PoolWorld.run (PoolWorld.init [5]
        ((PoolConfiguration.default Nat).with_validation (fun _ => false)) 0)
      [PoolOp.checkout 0, PoolOp.ret 0 0]).pool.metrics.total_retrieved = 1 ∧
    (PoolWorld.run (PoolWorld.init [5]
        ((PoolConfiguration.default Nat).with_validation (fun _ => false)) 0)
      [PoolOp.checkout 0, PoolOp.ret 0 0]).pool.metrics.total_returned = 0 ∧
    (PoolWorld.run (PoolWorld.init [5]
        ((PoolConfiguration.default Nat).with_validation (fun _ => false)) 0)
      [PoolOp.checkout 0, PoolOp.ret 0 0]).pool.active.card = 0 ∧
    (PoolWorld.run (PoolWorld.init [5]
        ((PoolConfiguration.default Nat).with_validation (fun _ => false)) 0)
      [PoolOp.checkout 0, PoolOp.ret 0 0]).extracted = 0 ∧
    ¬ ((PoolWorld.run (PoolWorld.init [5]
          ((PoolConfiguration.default Nat).with_validation (fun _ => false)) 0)
        [PoolOp.checkout 0, PoolOp.ret 0 0]).pool.metrics.total_retrieved
      - (PoolWorld.run (PoolWorld.init [5]
          ((PoolConfiguration.default Nat).with_validation (fun _ => false)) 0)
        [PoolOp.checkout 0, PoolOp.ret 0 0]).pool.metrics.total_returned
      = (PoolWorld.run (PoolWorld.init [5]
          ((PoolConfiguration.default Nat).with_validation (fun _ => false)) 0)
        [PoolOp.checkout 0, PoolOp.ret 0 0]).pool.active.card
        + (PoolWorld.run (PoolWorld.init [5]
            ((PoolConfiguration.default Nat).with_validation (fun _ => false)) 0)
          [PoolOp.checkout 0, PoolOp.ret 0 0]).extracted) := by
  exact ⟨by decide, by decide, by decide, by decide, by decide⟩

/-- C1 (amended): along every history of checkout, return (including
validation discards) and lease-extraction operations from a freshly built
fixed pool, total_retrieved = total_returned + active.len() +
validation_failures — validation discards are what the difference of the
counters tracks beyond the active set, while values permanently extracted
by callers keep their ids inside the active set and are therefore already
counted there. -/
theorem C1_amended_invariant {T : Type} (objects : List T) (cfg : PoolConfiguration T)
    (now : Nat) (ops : List (PoolOp T)) :
    (PoolWorld.run (PoolWorld.init objects cfg now) ops).pool.metrics.total_retrieved
      = (PoolWorld.run (PoolWorld.init objects cfg now) ops).pool.metrics.total_returned
        + (PoolWorld.run (PoolWorld.init objects cfg now) ops).pool.active.card
        + (PoolWorld.run (PoolWorld.init objects cfg now) ops).pool.metrics.validation_failures :=
  (run_world_inv ops (PoolWorld.init objects cfg now) (init_world_inv objects cfg now)).1

end Esox
